import Mathlib

set_option autoImplicit false

/-!
Verification of the real-time collaboration relay of the ChatBot repository
(`src/backend/services/collaborationService.js`, the Socket.IO connection
handler in the backend server entry point, and the file-level operations of
`src/backend/models/Project.js`).

The JavaScript service is shallowly embedded: JS `Map`s become association
lists (insertion-ordered, unique keys), JS numbers become `Int`/`Nat`,
possibly-`undefined` fields become `Option`, thrown-and-caught exceptions
become explicit `Except`/`Option` results, and the external collaborators
(Mongoose models, Socket.IO transport) are passed in as parameters or
modelled as explicit state (the transport-level room membership).
-/

namespace ChatBot

/-- An edit operation as carried in a code-change payload
(`operation.type`, `operation.position`, optional `operation.length`,
optional `operation.text` in collaborationService.js). Positions are JS
numbers, modelled as integers. -/
structure Op where
  type : String
  position : Int
  length : Option Nat
  text : Option String
deriving Repr, DecidableEq

/-- The JS expression `op.length || op.text?.length || 0`: both `undefined`
and `0` are falsy, so a missing or zero `length` falls through to the text
length, and then to `0`. -/
def insLen (op : Op) : Nat :=
  let fromText :=
    match op.text with
    | some t => t.length
    | none => 0
  match op.length with
  | some n => if n = 0 then fromText else n
  | none => fromText

/-- The JS expression `op.length || 1`. -/
def delLen (op : Op) : Nat :=
  match op.length with
  | some n => if n = 0 then 1 else n
  | none => 1

/-- Embedding of `transformAgainstOperation(op1, op2)` of collaborationService.js:
pairwise positional adjustment of the incoming `op1` against the prior
`op2`. Insert/insert shifts on `op1.position >= op2.position`,
delete/insert on the strict `op1.position > op2.position`, insert/delete
shifts backward on `op1.position > op2.position`; every other pairing
(including delete/delete) is left unchanged. -/
def transformAgainstOperation (op1 op2 : Op) : Op :=
  if op1.type = "insert" ∧ op2.type = "insert" then
    if op1.position ≥ op2.position then
      { op1 with position := op1.position + (insLen op2 : Int) }
    else op1
  else if op1.type = "delete" ∧ op2.type = "insert" then
    if op1.position > op2.position then
      { op1 with position := op1.position + (insLen op2 : Int) }
    else op1
  else if op1.type = "insert" ∧ op2.type = "delete" then
    if op1.position > op2.position then
      { op1 with position := op1.position - (delLen op2 : Int) }
    else op1
  else op1

/-- One entry of the pending-operation queue, as pushed by
`queueOperation` (fields `operation`, `content`, `userId`, `timestamp`). -/
structure PendingOp where
  operation : Op
  content : String
  userId : String
  timestamp : Int
deriving Repr, DecidableEq

/-- Embedding of `transformOperation(projectId, operation, data)` of
collaborationService.js: fold the incoming operation through every queued
operation whose client timestamp is strictly smaller than the incoming
timestamp. -/
def transformOperation (pendingOps : List PendingOp) (operation : Op)
    (timestamp : Int) : Op :=
  pendingOps.foldl
    (fun transformedOp pendingOp =>
      if pendingOp.timestamp < timestamp then
        transformAgainstOperation transformedOp pendingOp.operation
      else transformedOp)
    operation

theorem transformOperation_single (prior : PendingOp) (op : Op) (ts : Int)
    (hts : prior.timestamp < ts) :
    transformOperation [prior] op ts = transformAgainstOperation op prior.operation := by
  simp [transformOperation, hts]

/-- C3: an incoming insert transformed against a strictly earlier prior
insert is shifted forward by the prior insertion length exactly when the
prior position is less than or equal to the incoming position. -/
theorem insert_vs_insert_shift (prior : PendingOp) (op : Op) (ts : Int)
    (hop : op.type = "insert") (hprior : prior.operation.type = "insert")
    (hts : prior.timestamp < ts) :
    (transformOperation [prior] op ts).position =
      if prior.operation.position ≤ op.position then
        op.position + (insLen prior.operation : Int)
      else op.position := by
  rw [transformOperation_single prior op ts hts, transformAgainstOperation,
    if_pos ⟨hop, hprior⟩]
  rcases le_or_lt prior.operation.position op.position with h | h
  · rw [if_pos (ge_iff_le.mpr h), if_pos h]
  · rw [if_neg (not_le.mpr h), if_neg (not_le.mpr h)]

/-- C3 witness: the two spec examples. A prior insert at offset 10 leaves
an incoming insert at offset 5 unshifted, and a prior insert at offset 3 of
length 4 moves an incoming insert at offset 10 to offset 14. -/
theorem insert_vs_insert_shift_witness :
    (transformOperation [⟨⟨"insert", 10, none, some "abcde"⟩, "", "u1", 1⟩]
        ⟨"insert", 5, none, some "xyz"⟩ 2).position = 5 ∧
    (transformOperation [⟨⟨"insert", 3, some 4, none⟩, "", "u1", 1⟩]
        ⟨"insert", 10, none, some "xy"⟩ 2).position = 14 := by
  have h1 := insert_vs_insert_shift ⟨⟨"insert", 10, none, some "abcde"⟩, "", "u1", 1⟩
    ⟨"insert", 5, none, some "xyz"⟩ 2 rfl rfl (by decide)
  have h2 := insert_vs_insert_shift ⟨⟨"insert", 3, some 4, none⟩, "", "u1", 1⟩
    ⟨"insert", 10, none, some "xy"⟩ 2 rfl rfl (by decide)
  refine ⟨?_, ?_⟩
  · rw [h1]; decide
  · rw [h2]; decide

/-- C1 counterexample: a prior insert whose position equals the incoming
delete position does NOT shift the incoming delete (the source tests the
strict `op1.position > op2.position`), although the prior insertion length
is nonzero; the claim demands a shift at equality. -/
theorem delete_at_equal_insert_position_not_shifted :
    (transformOperation [⟨⟨"insert", 5, some 2, none⟩, "", "u1", 1⟩]
        ⟨"delete", 5, some 1, none⟩ 2).position = 5 ∧
    (⟨"insert", 5, some 2, none⟩ : Op).position = (⟨"delete", 5, some 1, none⟩ : Op).position ∧
    insLen ⟨"insert", 5, some 2, none⟩ = 2 := by
  decide

/-- C1 (amended): an incoming delete transformed against a strictly earlier
prior insert is shifted forward by the prior insertion length exactly when
the prior insert position is strictly less than the incoming position; at
equal positions no shift is applied. -/
theorem delete_vs_insert_shift (prior : PendingOp) (op : Op) (ts : Int)
    (hop : op.type = "delete") (hprior : prior.operation.type = "insert")
    (hts : prior.timestamp < ts) :
    (transformOperation [prior] op ts).position =
      if prior.operation.position < op.position then
        op.position + (insLen prior.operation : Int)
      else op.position := by
  have hne : ¬ (op.type = "insert" ∧ prior.operation.type = "insert") := by
    rw [hop]; rintro ⟨h, -⟩; exact absurd h (by decide)
  rw [transformOperation_single prior op ts hts, transformAgainstOperation,
    if_neg hne, if_pos ⟨hop, hprior⟩]
  rcases lt_or_le prior.operation.position op.position with h | h
  · rw [if_pos (gt_iff_lt.mpr h), if_pos h]
  · rw [if_neg (not_lt.mpr h), if_neg (not_lt.mpr h)]

/-- C1 (amended) witness: a prior insert at offset 3 of length 2 shifts an
incoming delete at offset 5 to offset 7. -/
theorem delete_vs_insert_shift_witness :
    (transformOperation [⟨⟨"insert", 3, some 2, none⟩, "", "u1", 1⟩]
        ⟨"delete", 5, some 1, none⟩ 2).position = 7 := by
  have h := delete_vs_insert_shift ⟨⟨"insert", 3, some 2, none⟩, "", "u1", 1⟩
    ⟨"delete", 5, some 1, none⟩ 2 rfl rfl (by decide)
  rw [h]; decide

/-! ## Association lists: the shallow embedding of JS `Map` -/

/-- First value bound to a key (JS `Map.prototype.get`; keys of a real
`Map` are unique, which the embedding tracks through nodup-keys
hypotheses where it matters). -/
def alookup {β : Type} : List (String × β) → String → Option β
  | [], _ => none
  | (k, v) :: rest, key => if k = key then some v else alookup rest key

/-- JS `Map.prototype.set`: replace the value in place when the key already
exists, otherwise append the new binding at the end. -/
def aset {β : Type} : List (String × β) → String → β → List (String × β)
  | [], key, v => [(key, v)]
  | (k, w) :: rest, key, v =>
    if k = key then (key, v) :: rest else (k, w) :: aset rest key v

/-- JS `Map.prototype.delete`. -/
def adel {β : Type} : List (String × β) → String → List (String × β)
  | [], _ => []
  | (k, w) :: rest, key => if k = key then rest else (k, w) :: adel rest key

theorem alookup_aset {β : Type} (l : List (String × β)) (k : String) (v : β) :
    alookup (aset l k v) k = some v := by
  induction l with
  | nil => simp [aset, alookup]
  | cons p rest ih =>
    by_cases h : p.1 = k
    · simp [aset, alookup, h]
    · simp [aset, alookup, h, ih]

theorem alookup_aset_ne {β : Type} (l : List (String × β)) (k k2 : String) (v : β)
    (h : k ≠ k2) : alookup (aset l k v) k2 = alookup l k2 := by
  induction l with
  | nil => simp [aset, alookup, h]
  | cons p rest ih =>
    by_cases hp : p.1 = k
    · simp [aset, alookup, hp, h]
    · by_cases hp2 : p.1 = k2
      · simp [aset, alookup, hp, hp2, Ne.symm h]
      · simp [aset, alookup, hp, hp2, ih]

theorem aset_ne_nil {β : Type} (l : List (String × β)) (k : String) (v : β) :
    aset l k v ≠ [] := by
  cases l with
  | nil => simp [aset]
  | cons p rest =>
    by_cases h : p.1 = k <;> simp [aset, h]

theorem mem_aset {β : Type} (l : List (String × β)) (k : String) (v : β)
    (x : String × β) (hx : x ∈ aset l k v) : x ∈ l ∨ x = (k, v) := by
  induction l with
  | nil => simp [aset] at hx; simp [hx]
  | cons p rest ih =>
    by_cases h : p.1 = k
    · rw [aset, if_pos h] at hx
      rcases List.mem_cons.mp hx with h1 | h1
      · exact Or.inr h1
      · exact Or.inl (List.mem_cons_of_mem p h1)
    · rw [aset, if_neg h] at hx
      rcases List.mem_cons.mp hx with h1 | h1
      · exact Or.inl (h1 ▸ List.mem_cons_self p rest)
      · rcases ih h1 with h2 | h2
        · exact Or.inl (List.mem_cons_of_mem p h2)
        · exact Or.inr h2

/-- A defined lookup means the key occurs among the keys. -/
theorem alookup_isSome_mem_keys {β : Type} (l : List (String × β)) (k : String)
    (h : (alookup l k).isSome = true) : k ∈ l.map Prod.fst := by
  induction l with
  | nil => simp [alookup] at h
  | cons p rest ih =>
    by_cases hp : p.1 = k
    · simp [hp]
    · rw [alookup, if_neg hp] at h
      simp [ih h]

/-- Deleting a key from a nodup-keyed list removes it entirely. -/
theorem alookup_adel_self {β : Type} (l : List (String × β)) (k : String)
    (hnd : (l.map Prod.fst).Nodup) : alookup (adel l k) k = none := by
  induction l with
  | nil => simp [adel, alookup]
  | cons p rest ih =>
    rw [List.map_cons, List.nodup_cons] at hnd
    by_cases hp : p.1 = k
    · rw [adel, if_pos hp]
      cases hlk : alookup rest k with
      | none => rfl
      | some v =>
        exfalso
        apply hnd.1
        rw [hp]
        apply alookup_isSome_mem_keys
        rw [hlk]; rfl
    · rw [adel, if_neg hp, alookup, if_neg hp]
      exact ih hnd.2

/-! ## The relay state -/

/-- Cursor line/column as carried in cursor-move payloads. -/
structure CursorPos where
  line : Int
  col : Int
deriving Repr, DecidableEq

/-- The per-session cursor object stored on `userData.cursor`
(`{ filePath, position, selection }`). -/
structure SessionCursor where
  filePath : Option String
  position : Option CursorPos
  selection : Option String
deriving Repr, DecidableEq

/-- One entry of the service-level `cursors` map
(`{ filePath, position, selection, timestamp }`). -/
structure CursorEntry where
  filePath : Option String
  position : Option CursorPos
  selection : Option String
  timestamp : Nat
deriving Repr, DecidableEq

/-- The result of `User.findById(userId).select(...)` that handleUserJoin
denormalizes into the session. -/
structure UserInfo where
  username : String
  fullName : String
  avatar : String
deriving Repr, DecidableEq

/-- One session record as stored in `activeUsers.get(projectId)`. -/
structure Session where
  userId : String
  socketId : String
  username : String
  fullName : String
  avatar : String
  joinedAt : Nat
  lastActivity : Nat
  cursor : Option SessionCursor
deriving Repr, DecidableEq

/-- One pending debounced save (the closure state of the `setTimeout`
callback registered by debouncedSave). -/
structure SaveTask where
  projectId : String
  filePath : String
  content : String
deriving Repr, DecidableEq

/-- An outbound Socket.IO message: a direct emit to one socket
(`socket.emit`), a room broadcast excluding the sender (`socket.to(room)`),
or a room broadcast including everyone (`io.to(room)`). -/
inductive OutMsg where
  | toSocket (sock : String) (event : String)
  | toRoomExcept (room : String) (sender : String) (event : String)
  | toRoom (room : String) (event : String)
deriving Repr, DecidableEq

/-- The process-local mutable state: the transport-level Socket.IO rooms
plus the four maps held by the CollaborationService instance
(`activeUsers`, `cursors`, `operationQueue`, `saveTimeouts`). -/
structure ServerState where
  rooms : List (String × List String)
  activeUsers : List (String × List (String × Session))
  cursors : List (String × CursorEntry)
  operationQueue : List (String × List PendingOp)
  saveTimeouts : List (String × SaveTask)
deriving Repr, DecidableEq

def ServerState.empty : ServerState := ⟨[], [], [], [], []⟩

/-- Embedding of `socket.join(room)`: idempotent addition to a transport
room. -/
def roomJoin (rooms : List (String × List String)) (pid sock : String) :
    List (String × List String) :=
  match alookup rooms pid with
  | none => aset rooms pid [sock]
  | some members =>
    if sock ∈ members then rooms else aset rooms pid (members ++ [sock])

theorem mem_roomJoin (rooms : List (String × List String)) (pid sock : String) :
    sock ∈ (alookup (roomJoin rooms pid sock) pid).getD [] := by
  rw [roomJoin]
  cases h : alookup rooms pid with
  | none => rw [alookup_aset]; simp
  | some members =>
    by_cases hm : sock ∈ members
    · simp [hm, h]
    · simp [hm, alookup_aset]

/-- Resolve the set of sockets a message is delivered to against the state
of the transport rooms. -/
def recipients (st : ServerState) : OutMsg → List String
  | OutMsg.toSocket s _ => [s]
  | OutMsg.toRoom room _ => (alookup st.rooms room).getD []
  | OutMsg.toRoomExcept room sender _ =>
    ((alookup st.rooms room).getD []).filter (fun x => x ≠ sender)

/-! ## Presence handlers -/

/-- Embedding of `handleUserJoin(socket, projectId)` of collaborationService.js. The
external collaborators are passed as parameters: `userId` is
`socket.userId` (absent when unauthenticated), `accessOk` the result of
`project && project.canUserAccess(userId)`, and `userInfo` the result of
`User.findById(userId)` — `none` models a failed lookup, which in the
source throws at `user.username` and lands in the surrounding catch AFTER
the (possibly empty) room entry was created in `activeUsers` and the
socket joined the transport room. -/
def handleUserJoin (st : ServerState) (sockId : String) (userId : Option String)
    (projectId : String) (accessOk : Bool) (userInfo : Option UserInfo)
    (now : Nat) : ServerState × List OutMsg :=
  match userId with
  | none => (st, [OutMsg.toSocket sockId "collaboration-error"])
  | some uid =>
    if accessOk then
      let st1 := { st with rooms := roomJoin st.rooms projectId sockId }
      let st2 :=
        if (alookup st1.activeUsers projectId).isSome then st1
        else { st1 with activeUsers := aset st1.activeUsers projectId [] }
      match userInfo with
      | none => (st2, [OutMsg.toSocket sockId "collaboration-error"])
      | some u =>
        let users := (alookup st2.activeUsers projectId).getD []
        let sess : Session :=
          { userId := uid, socketId := sockId, username := u.username,
            fullName := u.fullName, avatar := u.avatar, joinedAt := now,
            lastActivity := now, cursor := none }
        let st3 := { st2 with
          activeUsers := aset st2.activeUsers projectId (aset users sockId sess) }
        (st3,
          [OutMsg.toRoomExcept projectId sockId "user-joined",
           OutMsg.toSocket sockId "active-users",
           OutMsg.toSocket sockId "project-joined"])
    else
      (st, [OutMsg.toSocket sockId "collaboration-error"])

/-- The join-project connection handler of the backend entry point:
`socket.join(projectId)` runs unconditionally BEFORE
`collaborationService.handleUserJoin` performs its access check. -/
def onJoinProject (st : ServerState) (sockId : String) (userId : Option String)
    (projectId : String) (accessOk : Bool) (userInfo : Option UserInfo)
    (now : Nat) : ServerState × List OutMsg :=
  let st1 := { st with rooms := roomJoin st.rooms projectId sockId }
  handleUserJoin st1 sockId userId projectId accessOk userInfo now

/-- The loop body of `handleUserLeave`: scan the project map in insertion
order, remove the socket from the FIRST room that contains it, drop the
room if it became empty, and stop (the `break` in the source). Returns
`none` when no room contains the socket. -/
def removeFromFirstRoom (sockId : String) :
    List (String × List (String × Session)) →
    Option (String × List (String × List (String × Session)))
  | [] => none
  | (pid, users) :: rest =>
    if (alookup users sockId).isSome then
      let users2 := adel users sockId
      some (pid, if users2.isEmpty then rest else (pid, users2) :: rest)
    else
      match removeFromFirstRoom sockId rest with
      | none => none
      | some (p, rest2) => some (p, (pid, users) :: rest2)

/-- Embedding of `handleUserLeave(socket)` of collaborationService.js: a no-op on an
unknown socket; otherwise removes the session from the first room found,
deletes the cursor of the socket, deletes the room if now empty, and notifies
the remaining room members. -/
def handleUserLeave (st : ServerState) (sockId : String) :
    ServerState × List OutMsg :=
  match removeFromFirstRoom sockId st.activeUsers with
  | none => (st, [])
  | some (pid, newActive) =>
    ({ st with activeUsers := newActive, cursors := adel st.cursors sockId },
     [OutMsg.toRoomExcept pid sockId "user-left"])

/-- Payload of a cursor-move event; every field may be absent. -/
structure CursorMoveData where
  projectId : Option String
  filePath : Option String
  position : Option CursorPos
  selection : Option String
deriving Repr, DecidableEq

/-- JS string coercion of a possibly-undefined room name (an undefined
`projectId` reaches `socket.to(projectId)` as the room name). -/
def jsRoom : Option String → String
  | some s => s
  | none => "undefined"

/-- Embedding of `handleCursorMove(socket, data)` of collaborationService.js. There is
no validation: the `cursors` map is updated unconditionally, the session
record (cursor + lastActivity) only when the project room and session
exist, and the broadcast always goes out to the room named by the payload
`projectId`. -/
def handleCursorMove (st : ServerState) (sockId : String)
    (data : CursorMoveData) (now : Nat) : ServerState × List OutMsg :=
  let entry : CursorEntry :=
    { filePath := data.filePath, position := data.position,
      selection := data.selection, timestamp := now }
  let st1 := { st with cursors := aset st.cursors sockId entry }
  let st2 :=
    match data.projectId with
    | none => st1
    | some pid =>
      match alookup st1.activeUsers pid with
      | none => st1
      | some users =>
        match alookup users sockId with
        | none => st1
        | some sess =>
          let cur : SessionCursor :=
            { filePath := data.filePath, position := data.position,
              selection := data.selection }
          let sess2 : Session :=
            { sess with lastActivity := now, cursor := some cur }
          { st1 with
            activeUsers := aset st1.activeUsers pid (aset users sockId sess2) }
  (st2, [OutMsg.toRoomExcept (jsRoom data.projectId) sockId "cursor-move"])

/-! ## Code-change relay, pending queue, debounced persistence -/

/-- JS truthiness test `!s` on a string-valued field: `undefined` and the
empty string are both falsy. -/
def jsFalsy : Option String → Bool
  | none => true
  | some s => s == ""

/-- Payload of a code-change event. The source destructures
`{ projectId, filePath, operation, content, position, timestamp }`;
`position` is relayed untouched and not read, so it is omitted here. -/
structure CodeChangeData where
  projectId : Option String
  filePath : Option String
  operation : Op
  content : String
  timestamp : Int
deriving Repr, DecidableEq

/-- Embedding of `queueOperation(projectId, filePath, operation)`: append to the
per-key queue, then keep only the most recent 100 entries
(`queue.slice(-100)`). -/
def queueOperation (q : List (String × List PendingOp)) (key : String)
    (op : PendingOp) : List (String × List PendingOp) :=
  let queue := (alookup q key).getD [] ++ [op]
  let queue2 :=
    if queue.length > 100 then queue.drop (queue.length - 100) else queue
  aset q key queue2

/-- Embedding of `debouncedSave(projectId, filePath, content)`: clear any pending timer
for the key `save_projectId_filePath` and register a fresh one carrying
the latest content (last-write-wins replacement in the `saveTimeouts`
map). -/
def debouncedSave (timeouts : List (String × SaveTask))
    (projectId filePath content : String) : List (String × SaveTask) :=
  let task : SaveTask :=
    { projectId := projectId, filePath := filePath, content := content }
  aset timeouts ("save_" ++ projectId ++ "_" ++ filePath) task

/-- One write pushed to the external project store
(`project.updateFile` with the author string system, followed by
`project.save()`). -/
structure FileWrite where
  projectId : String
  filePath : String
  content : String
  author : String
deriving Repr, DecidableEq

/-- The timer body registered by debouncedSave. When the 2-second timer
for `key` fires uncontested: look up the project; when found, write the
stored content with the system author; the pending entry is deleted either
way. -/
def fireSaveTimer (timeouts : List (String × SaveTask)) (key : String)
    (projectFound : Bool) : List (String × SaveTask) × List FileWrite :=
  match alookup timeouts key with
  | none => (timeouts, [])
  | some task =>
    (adel timeouts key,
     if projectFound then
       [{ projectId := task.projectId, filePath := task.filePath,
          content := task.content, author := "system" }]
     else [])

/-- Embedding of `handleCodeChange(socket, data)` of collaborationService.js: reject a
payload with a falsy projectId or filePath, then (external) write-access
check, then transform against the pending queue, broadcast to the other
room members, queue the transformed operation, and (re)arm the debounced
save. -/
def handleCodeChange (st : ServerState) (sockId userId : String)
    (data : CodeChangeData) (accessOk : Bool) : ServerState × List OutMsg :=
  if jsFalsy data.projectId || jsFalsy data.filePath then
    (st, [OutMsg.toSocket sockId "collaboration-error"])
  else if accessOk then
    let pid := data.projectId.getD ""
    let fp := data.filePath.getD ""
    let key := pid ++ ":" ++ fp
    let pendingOps := (alookup st.operationQueue key).getD []
    let tOp := transformOperation pendingOps data.operation data.timestamp
    let newPending : PendingOp :=
      { operation := tOp, content := data.content, userId := userId,
        timestamp := data.timestamp }
    let st1 := { st with
      operationQueue := queueOperation st.operationQueue key newPending }
    let st2 := { st1 with
      saveTimeouts := debouncedSave st1.saveTimeouts pid fp data.content }
    (st2, [OutMsg.toRoomExcept pid sockId "code-change"])
  else
    (st, [OutMsg.toSocket sockId "collaboration-error"])

/-! ## Inactivity sweep -/

/-- The 5-minute inactivity threshold of cleanupInactiveUsers, in
milliseconds. -/
def inactiveThreshold : Nat := 5 * 60 * 1000

/-- The loop of `cleanupInactiveUsers()`: per project, drop every session
whose last activity is older than the threshold (emitting a room-wide
user-inactive notification per eviction and collecting the evicted socket
ids for cursor cleanup), then drop the project entry when it became
empty. -/
def cleanupLoop (now : Nat) :
    List (String × List (String × Session)) →
    List (String × List (String × Session)) × List String × List OutMsg
  | [] => ([], [], [])
  | (pid, users) :: rest =>
    let kept := users.filter fun p => decide (now - p.2.lastActivity ≤ inactiveThreshold)
    let removed :=
      (users.filter fun p => decide (inactiveThreshold < now - p.2.lastActivity)).map Prod.fst
    let r := cleanupLoop now rest
    ((if kept.isEmpty then r.1 else (pid, kept) :: r.1),
     removed ++ r.2.1,
     removed.map (fun _ => OutMsg.toRoom pid "user-inactive") ++ r.2.2)

/-- Embedding of `cleanupInactiveUsers()` of collaborationService.js. -/
def cleanupInactiveUsers (st : ServerState) (now : Nat) :
    ServerState × List OutMsg :=
  let r := cleanupLoop now st.activeUsers
  ({ st with
     activeUsers := r.1,
     cursors := r.2.1.foldl (fun cs s => adel cs s) st.cursors },
   r.2.2)

/-! ## The project store (src/backend/models/Project.js), file-level part -/

/-- One version entry of a file history. -/
structure HistoryEntry where
  version : Nat
  content : String
deriving Repr, DecidableEq

/-- One file subdocument of a project. -/
structure PFile where
  name : String
  path : String
  content : String
  language : String
  size : Nat
  parent : String
  version : Nat
  history : List HistoryEntry
deriving Repr, DecidableEq

/-- One activity record (`{ type, user, details }`; details carry the
paths, irrelevant to the properties proved here). -/
structure ActivityEntry where
  type : String
  user : String
deriving Repr, DecidableEq

/-- The file-level part of a project document. -/
structure ProjectDoc where
  files : List PFile
  activity : List ActivityEntry
deriving Repr, DecidableEq

/-- The JS file-name computation: last slash-separated segment of the
path (split on the slash, then pop). -/
def jsFileName (filePath : String) : String :=
  (filePath.splitOn "/").getLastD ""

/-- The JS parent-path computation, substring up to the last slash with a
logical-or fallback to the root: the prefix before the last slash, with
the empty result (no slash, or a leading slash only) coerced to the
root. -/
def jsParentPath (filePath : String) : String :=
  let parts := filePath.splitOn "/"
  if parts.length ≤ 1 then "/"
  else
    let pp := String.intercalate "/" parts.dropLast
    if pp = "" then "/" else pp

/-- Embedding of `projectSchema.methods.addFile(filePath, content)`: throws
`File already exists` when a file with the same path is present, else
appends the new file subdocument. -/
def addFile (p : ProjectDoc) (filePath content : String) :
    Except String (ProjectDoc × PFile) :=
  if (p.files.find? fun f => f.path == filePath).isSome then
    Except.error "File already exists"
  else
    let newFile : PFile :=
      { name := jsFileName filePath, path := filePath, content := content,
        language := "plaintext", size := content.utf8ByteSize,
        parent := jsParentPath filePath, version := 1,
        history := [{ version := 1, content := content }] }
    Except.ok ({ p with files := p.files ++ [newFile] }, newFile)

/-- Embedding of `projectSchema.methods.deleteFile(filePath)`: throws `File not found`
when absent, else removes the file subdocument. -/
def deleteFile (p : ProjectDoc) (filePath : String) :
    Except String ProjectDoc :=
  match p.files.findIdx? (fun f => f.path == filePath) with
  | none => Except.error "File not found"
  | some i => Except.ok { p with files := p.files.eraseIdx i }

/-- Embedding of `renameFile(project, oldPath, newPath)` of collaborationService.js:
throws when the old path is missing or the new path already exists, else
rewrites path, name and parent of the file in place. -/
def renameFile (p : ProjectDoc) (oldPath newPath : String) :
    Except String (ProjectDoc × PFile) :=
  match p.files.find? (fun f => f.path == oldPath) with
  | none => Except.error "File not found"
  | some file =>
    if (p.files.find? fun f => f.path == newPath).isSome then
      Except.error "File with new name already exists"
    else
      let file2 : PFile :=
        { file with
          path := newPath, name := jsFileName newPath,
          parent := jsParentPath newPath }
      let files2 := p.files.map fun f => if f.path == oldPath then file2 else f
      Except.ok ({ p with files := files2 }, file2)

/-- Embedding of `projectSchema.methods.addToActivity(type, userId, details)`: prepend
and keep only the most recent 100 records. -/
def addToActivity (p : ProjectDoc) (type userId : String) : ProjectDoc :=
  let a := ({ type := type, user := userId } : ActivityEntry) :: p.activity
  { p with activity := if a.length > 100 then a.take 100 else a }

/-- Payload of a file-operation event. -/
structure FileOpData where
  projectId : Option String
  operation : Option String
  filePath : Option String
  newPath : Option String
  content : Option String
deriving Repr, DecidableEq

/-- Result of `handleFileOperation`: the project document after the call
(`none` when `Project.findById` found nothing), the emitted events, and
whether `project.save()` ran. -/
structure FileOpResult where
  project : Option ProjectDoc
  emits : List OutMsg
  saved : Bool
deriving Repr, DecidableEq

/-- JS coercion of a possibly-undefined string argument; the file paths of
the claims proved about this handler are always present. -/
def jsStr (s : Option String) : String := s.getD ""

/-- Embedding of `handleFileOperation(socket, data)` of collaborationService.js.
External results are parameters: `proj` is the `Project.findById` result
and `accessOk` the write-level `canUserAccess` result. Every
thrown error (unknown operation, duplicate path, missing file) lands in
the catch block, which emits a collaboration-error to the requesting
socket only; on success an activity record is appended, the project
saved, and the operation broadcast to the WHOLE room via `io.to`. -/
def handleFileOperation (sockId userId : String) (proj : Option ProjectDoc)
    (accessOk : Bool) (data : FileOpData) : FileOpResult :=
  let errorResult := fun (p : Option ProjectDoc) =>
    ({ project := p, emits := [OutMsg.toSocket sockId "collaboration-error"],
       saved := false } : FileOpResult)
  match proj with
  | none => errorResult none
  | some p =>
    if accessOk then
      let finish := fun (p2 : ProjectDoc) (activityType : String) =>
        let p3 := addToActivity p2 activityType userId
        ({ project := some p3,
           emits := [OutMsg.toRoom (jsRoom data.projectId) "file-operation"],
           saved := true } : FileOpResult)
      match data.operation with
      | some "create" =>
        match addFile p (jsStr data.filePath) (jsStr data.content) with
        | Except.error _ => errorResult (some p)
        | Except.ok r => finish r.1 "file_created"
      | some "delete" =>
        match deleteFile p (jsStr data.filePath) with
        | Except.error _ => errorResult (some p)
        | Except.ok p2 => finish p2 "file_deleted"
      | some "rename" =>
        match renameFile p (jsStr data.filePath) (jsStr data.newPath) with
        | Except.error _ => errorResult (some p)
        | Except.ok r => finish r.1 "file_renamed"
      | _ => errorResult (some p)
    else
      errorResult (some p)

/-! ## Claim theorems: relay events -/

theorem handleCursorMove_rooms (st : ServerState) (sockId : String)
    (data : CursorMoveData) (now : Nat) :
    (handleCursorMove st sockId data now).1.rooms = st.rooms := by
  rw [handleCursorMove]
  dsimp only
  split
  · rfl
  · split
    · rfl
    · split
      · rfl
      · rfl

theorem handleCodeChange_rooms (st : ServerState) (sockId userId : String)
    (data : CodeChangeData) (accessOk : Bool) :
    (handleCodeChange st sockId userId data accessOk).1.rooms = st.rooms := by
  rw [handleCodeChange]
  split
  · rfl
  · split <;> rfl

/-- C2: a connection whose join-project request is denied receives only a
collaboration-error, yet the connection handler had already executed
`socket.join(projectId)`, so the socket is in the transport room and is a
recipient of every room-level code-change and cursor-move broadcast sent
by any other member; moreover neither handler ever removes a socket from
a transport room, so this persists across subsequent events. -/
theorem denied_join_remains_in_broadcast_room (st : ServerState)
    (sockId uid pid sender : String) (info : Option UserInfo) (now : Nat)
    (hsender : sender ≠ sockId) :
    (onJoinProject st sockId (some uid) pid false info now).2 =
      [OutMsg.toSocket sockId "collaboration-error"] ∧
    sockId ∈ (alookup (onJoinProject st sockId (some uid) pid false info now).1.rooms pid).getD [] ∧
    sockId ∈ recipients (onJoinProject st sockId (some uid) pid false info now).1
      (OutMsg.toRoomExcept pid sender "code-change") ∧
    sockId ∈ recipients (onJoinProject st sockId (some uid) pid false info now).1
      (OutMsg.toRoomExcept pid sender "cursor-move") ∧
    (∀ st2 uid2 data acc, (handleCodeChange st2 sender uid2 data acc).1.rooms = st2.rooms) ∧
    (∀ st2 data now2, (handleCursorMove st2 sender data now2).1.rooms = st2.rooms) := by
  have hjoin : onJoinProject st sockId (some uid) pid false info now =
      ({ st with rooms := roomJoin st.rooms pid sockId },
       [OutMsg.toSocket sockId "collaboration-error"]) := by
    rw [onJoinProject, handleUserJoin]
    simp
  have hmem : sockId ∈ (alookup (roomJoin st.rooms pid sockId) pid).getD [] :=
    mem_roomJoin st.rooms pid sockId
  refine ⟨by rw [hjoin], by rw [hjoin]; exact hmem, ?_, ?_, ?_, ?_⟩
  · rw [hjoin, recipients]
    exact List.mem_filter.mpr ⟨hmem, by simp [Ne.symm hsender]⟩
  · rw [hjoin, recipients]
    exact List.mem_filter.mpr ⟨hmem, by simp [Ne.symm hsender]⟩
  · intro st2 uid2 data acc
    exact handleCodeChange_rooms st2 sender uid2 data acc
  · intro st2 data now2
    exact handleCursorMove_rooms st2 sender data now2

/-- C2 witness: a concrete denied join on the empty state. -/
theorem denied_join_remains_in_broadcast_room_witness :
    (onJoinProject ServerState.empty "s1" (some "u1") "p1" false none 0).2 =
      [OutMsg.toSocket "s1" "collaboration-error"] ∧
    "s1" ∈ recipients (onJoinProject ServerState.empty "s1" (some "u1") "p1" false none 0).1
      (OutMsg.toRoomExcept "p1" "s2" "code-change") := by
  have h := denied_join_remains_in_broadcast_room ServerState.empty
    "s1" "u1" "p1" "s2" none 0 (by decide)
  exact ⟨h.1, h.2.2.1⟩

/-- C7 counterexample: a cursor-move with every required field missing is
not rejected — the handler mutates the `cursors` map and emits no error
event at all, only the (empty-roomed) broadcast. -/
theorem cursor_move_missing_fields_still_mutates :
    (handleCursorMove ServerState.empty "s1" ⟨none, none, none, none⟩ 5).1.cursors =
      [("s1", ⟨none, none, none, 5⟩)] ∧
    (handleCursorMove ServerState.empty "s1" ⟨none, none, none, none⟩ 5).2 =
      [OutMsg.toRoomExcept "undefined" "s1" "cursor-move"] := by
  decide

/-- C7 (amended): only the code-change handler validates its required
fields; a code-change whose projectId or filePath is missing (or empty) is
rejected with a collaboration-error to the requesting socket, with no
state mutation and no broadcast. The cursor-move handler performs no such
validation (see the counterexample). -/
theorem code_change_missing_fields_rejected (st : ServerState)
    (sockId userId : String) (data : CodeChangeData) (accessOk : Bool)
    (h : (jsFalsy data.projectId || jsFalsy data.filePath) = true) :
    handleCodeChange st sockId userId data accessOk =
      (st, [OutMsg.toSocket sockId "collaboration-error"]) := by
  simp [handleCodeChange, h]

/-- C7 (amended) witness: a code-change with no projectId. -/
theorem code_change_missing_fields_rejected_witness :
    handleCodeChange ServerState.empty "s1" "u1"
        ⟨none, some "a.js", ⟨"insert", 0, none, none⟩, "x", 0⟩ true =
      (ServerState.empty, [OutMsg.toSocket "s1" "collaboration-error"]) :=
  code_change_missing_fields_rejected ServerState.empty "s1" "u1"
    ⟨none, some "a.js", ⟨"insert", 0, none, none⟩, "x", 0⟩ true (by decide)

/-! ## Claim theorems: debounced persistence -/

/-- Number of entries of an association list bound to a key. -/
def keyCount {β : Type} : List (String × β) → String → Nat
  | [], _ => 0
  | (k1, _) :: rest, k => (if k1 = k then 1 else 0) + keyCount rest k

theorem keyCount_aset {β : Type} (l : List (String × β)) (k : String) (v : β)
    (h : keyCount l k ≤ 1) : keyCount (aset l k v) k = 1 := by
  induction l with
  | nil => simp [aset, keyCount]
  | cons p rest ih =>
    by_cases hp : p.1 = k
    · rw [keyCount, if_pos hp] at h
      rw [aset, if_pos hp, keyCount, if_pos rfl]
      omega
    · rw [keyCount, if_neg hp] at h
      rw [aset, if_neg hp, keyCount, if_neg hp]
      have hres := ih (by omega)
      omega

/-- debouncedSave is exactly a map replacement at the save key. -/
theorem debouncedSave_eq (t : List (String × SaveTask)) (pid fp c : String) :
    debouncedSave t pid fp c =
      aset t ("save_" ++ pid ++ "_" ++ fp)
        ({ projectId := pid, filePath := fp, content := c } : SaveTask) := rfl

/-- C9: after three debounced-save calls for the same (project, file) key,
firing the timer produces exactly one external write, carrying the content
of the third call and the system author; and after every call exactly one
timer entry is pending for the key. -/
theorem debounce_coalesces_to_latest (timeouts : List (String × SaveTask))
    (pid fp c1 c2 c3 : String)
    (hkey : keyCount timeouts ("save_" ++ pid ++ "_" ++ fp) ≤ 1) :
    (fireSaveTimer
        (debouncedSave (debouncedSave (debouncedSave timeouts pid fp c1) pid fp c2) pid fp c3)
        ("save_" ++ pid ++ "_" ++ fp) true).2 =
      [{ projectId := pid, filePath := fp, content := c3, author := "system" }] ∧
    keyCount (debouncedSave timeouts pid fp c1) ("save_" ++ pid ++ "_" ++ fp) = 1 ∧
    keyCount (debouncedSave (debouncedSave timeouts pid fp c1) pid fp c2)
      ("save_" ++ pid ++ "_" ++ fp) = 1 ∧
    keyCount (debouncedSave (debouncedSave (debouncedSave timeouts pid fp c1) pid fp c2) pid fp c3)
      ("save_" ++ pid ++ "_" ++ fp) = 1 := by
  have h1 := keyCount_aset timeouts ("save_" ++ pid ++ "_" ++ fp)
    ({ projectId := pid, filePath := fp, content := c1 } : SaveTask) hkey
  have h2 := keyCount_aset (debouncedSave timeouts pid fp c1) ("save_" ++ pid ++ "_" ++ fp)
    ({ projectId := pid, filePath := fp, content := c2 } : SaveTask)
    (by rw [debouncedSave_eq]; exact h1.le)
  have h3 := keyCount_aset (debouncedSave (debouncedSave timeouts pid fp c1) pid fp c2)
    ("save_" ++ pid ++ "_" ++ fp)
    ({ projectId := pid, filePath := fp, content := c3 } : SaveTask)
    (by rw [debouncedSave_eq]; exact h2.le)
  refine ⟨?_, by rw [debouncedSave_eq]; exact h1, by rw [debouncedSave_eq]; exact h2,
    by rw [debouncedSave_eq]; exact h3⟩
  rw [show debouncedSave (debouncedSave (debouncedSave timeouts pid fp c1) pid fp c2) pid fp c3 =
    aset (debouncedSave (debouncedSave timeouts pid fp c1) pid fp c2)
      ("save_" ++ pid ++ "_" ++ fp)
      ({ projectId := pid, filePath := fp, content := c3 } : SaveTask) from rfl]
  simp [fireSaveTimer, alookup_aset]

/-- C9 witness: three saves of distinct contents on an empty timer map. -/
theorem debounce_coalesces_to_latest_witness :
    (fireSaveTimer (debouncedSave (debouncedSave (debouncedSave [] "p1" "a.js" "v1") "p1" "a.js" "v2") "p1" "a.js" "v3")
        "save_p1_a.js" true).2 =
      [{ projectId := "p1", filePath := "a.js", content := "v3", author := "system" }] := by
  have h := debounce_coalesces_to_latest [] "p1" "a.js" "v1" "v2" "v3" (by decide)
  simpa using h.1

/-! ## Claim theorems: file operations -/

/-- C10: a create file-operation whose path already exists emits a single
collaboration-error to the requesting socket, broadcasts nothing, leaves
the project document untouched (no file, no activity record) and performs
no save. -/
theorem create_existing_path_rejected (sockId userId fp : String)
    (p : ProjectDoc) (data : FileOpData)
    (hop : data.operation = some "create")
    (hfp : data.filePath = some fp)
    (hex : (p.files.find? fun f => f.path == fp).isSome = true) :
    handleFileOperation sockId userId (some p) true data =
      { project := some p,
        emits := [OutMsg.toSocket sockId "collaboration-error"],
        saved := false } := by
  have haf : addFile p (jsStr data.filePath) (jsStr data.content) =
      Except.error "File already exists" := by
    rw [hfp]
    rw [addFile]
    rw [if_pos (by simpa [jsStr] using hex)]
  simp [handleFileOperation, hop, haf]

/-- C10 witness: creating `a.js` in a project that already has `a.js`. -/
theorem create_existing_path_rejected_witness :
    handleFileOperation "s1" "u1"
        (some { files := [{ name := "a.js", path := "a.js", content := "",
                            language := "plaintext", size := 0, parent := "/",
                            version := 1, history := [] }], activity := [] })
        true
        { projectId := some "p1", operation := some "create",
          filePath := some "a.js", newPath := none, content := some "x" } =
      { project := some { files := [{ name := "a.js", path := "a.js", content := "",
                                      language := "plaintext", size := 0, parent := "/",
                                      version := 1, history := [] }], activity := [] },
        emits := [OutMsg.toSocket "s1" "collaboration-error"],
        saved := false } := by
  exact create_existing_path_rejected "s1" "u1" "a.js" _ _ rfl rfl (by decide)

/-! ## Claim theorems: the no-empty-room invariant -/

/-- No project entry of a session directory maps to an empty room. -/
def noEmptyRoomsL (l : List (String × List (String × Session))) : Prop :=
  ∀ pid users, (pid, users) ∈ l → users ≠ []

/-- The spec invariant: a room exists only when it holds a session. -/
def noEmptyRooms (st : ServerState) : Prop :=
  noEmptyRoomsL st.activeUsers

theorem aset_noEmpty (l : List (String × List (String × Session)))
    (k : String) (v : List (String × Session))
    (h : noEmptyRoomsL l) (hv : v ≠ []) : noEmptyRoomsL (aset l k v) := by
  induction l with
  | nil =>
    intro pid users hm
    rw [aset] at hm
    rcases List.mem_singleton.mp hm with h1
    cases h1; exact hv
  | cons p rest ih =>
    intro pid users hm
    by_cases hp : p.1 = k
    · rw [aset, if_pos hp] at hm
      rcases List.mem_cons.mp hm with h1 | h1
      · cases h1; exact hv
      · exact h pid users (List.mem_cons_of_mem p h1)
    · rw [aset, if_neg hp] at hm
      rcases List.mem_cons.mp hm with h1 | h1
      · exact h pid users (h1 ▸ List.mem_cons_self p rest)
      · exact ih (fun q us hq => h q us (List.mem_cons_of_mem p hq)) pid users h1

theorem aset_aset_noEmpty (l : List (String × List (String × Session)))
    (k : String) (v : List (String × Session))
    (h : noEmptyRoomsL l) (hv : v ≠ []) :
    noEmptyRoomsL (aset (aset l k []) k v) := by
  induction l with
  | nil =>
    intro pid users hm
    simp [aset] at hm
    cases hm.2; exact hv
  | cons p rest ih =>
    intro pid users hm
    by_cases hp : p.1 = k
    · rw [aset, if_pos hp, aset, if_pos rfl] at hm
      rcases List.mem_cons.mp hm with h1 | h1
      · cases h1; exact hv
      · exact h pid users (List.mem_cons_of_mem p h1)
    · rw [aset, if_neg hp, aset, if_neg hp] at hm
      rcases List.mem_cons.mp hm with h1 | h1
      · exact h pid users (h1 ▸ List.mem_cons_self p rest)
      · exact ih (fun q us hq => h q us (List.mem_cons_of_mem p hq)) pid users h1

theorem removeFromFirstRoom_noEmpty (sockId : String)
    (l : List (String × List (String × Session))) (h : noEmptyRoomsL l)
    (pid : String) (l2 : List (String × List (String × Session)))
    (hr : removeFromFirstRoom sockId l = some (pid, l2)) : noEmptyRoomsL l2 := by
  induction l generalizing l2 with
  | nil => simp [removeFromFirstRoom] at hr
  | cons p rest ih =>
    have htail : noEmptyRoomsL rest :=
      fun q us hq => h q us (List.mem_cons_of_mem p hq)
    by_cases hs : (alookup p.2 sockId).isSome = true
    · rw [removeFromFirstRoom] at hr
      rw [if_pos hs] at hr
      cases hr
      by_cases he : (adel p.2 sockId).isEmpty = true
      · rw [if_pos he]
        exact htail
      · rw [if_neg he]
        intro q us hq
        rcases List.mem_cons.mp hq with h1 | h1
        · cases h1
          intro hnil
          rw [hnil] at he
          exact he rfl
        · exact htail q us h1
    · rw [removeFromFirstRoom] at hr
      rw [if_neg hs] at hr
      cases hrec : removeFromFirstRoom sockId rest with
      | none => rw [hrec] at hr; exact absurd hr (by simp)
      | some pr =>
        rw [hrec] at hr
        cases hr
        intro q us hq
        rcases List.mem_cons.mp hq with h1 | h1
        · exact h q us (h1 ▸ List.mem_cons_self p rest)
        · exact ih htail pr.2 (by rw [hrec]) q us h1

theorem cleanupLoop_noEmpty (now : Nat)
    (l : List (String × List (String × Session))) :
    noEmptyRoomsL (cleanupLoop now l).1 := by
  induction l with
  | nil => intro pid users hm; simp [cleanupLoop] at hm
  | cons p rest ih =>
    intro pid users hm
    rw [cleanupLoop] at hm
    by_cases he : (p.2.filter fun q =>
        decide (now - q.2.lastActivity ≤ inactiveThreshold)).isEmpty = true
    · rw [if_pos he] at hm
      exact ih pid users hm
    · rw [if_neg he] at hm
      rcases List.mem_cons.mp hm with h1 | h1
      · cases h1
        intro hnil
        rw [hnil] at he
        exact he rfl
      · exact ih pid users h1

/-- C4 counterexample: a join that passes the access check but whose user
lookup fails creates the room entry first and then aborts in the catch
block, leaving a dangling empty room in the session directory. -/
theorem failed_join_leaves_empty_room :
    (onJoinProject ServerState.empty "s1" (some "u1") "p1" true none 0).1.activeUsers =
      [("p1", [])] ∧
    ¬ noEmptyRooms (onJoinProject ServerState.empty "s1" (some "u1") "p1" true none 0).1 := by
  have h : (onJoinProject ServerState.empty "s1" (some "u1") "p1" true none 0).1.activeUsers =
      [("p1", [])] := by decide
  refine ⟨h, fun hinv => ?_⟩
  exact hinv "p1" [] (by rw [h]; exact List.mem_singleton.mpr rfl) rfl

/-- C4 (amended): the no-empty-room invariant is preserved by Leave, by
the inactivity sweep, and by every Join whose user lookup succeeds; it
fails only on the Join path whose user lookup fails after the room entry
was created (see the counterexample). -/
theorem no_empty_rooms_preserved (st : ServerState) (h : noEmptyRooms st) :
    (∀ sockId, noEmptyRooms (handleUserLeave st sockId).1) ∧
    (∀ now, noEmptyRooms (cleanupInactiveUsers st now).1) ∧
    (∀ sockId uid pid u now accessOk,
      noEmptyRooms (onJoinProject st sockId uid pid accessOk (some u) now).1) := by
  refine ⟨?_, ?_, ?_⟩
  · intro sockId
    rw [handleUserLeave]
    cases hr : removeFromFirstRoom sockId st.activeUsers with
    | none => exact h
    | some pr =>
      exact removeFromFirstRoom_noEmpty sockId st.activeUsers h pr.1 pr.2 (by rw [hr])
  · intro now
    exact cleanupLoop_noEmpty now st.activeUsers
  · intro sockId uid pid u now accessOk
    rw [onJoinProject, handleUserJoin.eq_def]
    cases uid with
    | none => exact h
    | some uid0 =>
      cases accessOk with
      | false => exact h
      | true =>
        simp only [if_true]
        cases hs : (alookup st.activeUsers pid).isSome with
        | true =>
          simp only [hs, if_true]
          exact aset_noEmpty st.activeUsers pid _ h (aset_ne_nil _ _ _)
        | false =>
          simp only [hs, Bool.false_eq_true, if_false]
          exact aset_aset_noEmpty st.activeUsers pid _ h (aset_ne_nil _ _ _)

/-- C4 (amended) witness: on a state holding one singleton room, a leave
empties the directory rather than leaving an empty room. -/
theorem no_empty_rooms_preserved_witness :
    noEmptyRooms (handleUserLeave
      { rooms := [("p1", ["s1"])],
        activeUsers := [("p1", [("s1",
          { userId := "u1", socketId := "s1", username := "a", fullName := "A",
            avatar := "", joinedAt := 0, lastActivity := 0, cursor := none })])],
        cursors := [], operationQueue := [], saveTimeouts := [] } "s1").1 := by
  have h := no_empty_rooms_preserved
    { rooms := [("p1", ["s1"])],
      activeUsers := [("p1", [("s1",
        { userId := "u1", socketId := "s1", username := "a", fullName := "A",
          avatar := "", joinedAt := 0, lastActivity := 0, cursor := none })])],
      cursors := [], operationQueue := [], saveTimeouts := [] }
    (by intro pid users hm; simp at hm; rw [hm.2]; simp)
  exact h.1 "s1"

/-! ## Claim theorems: room membership of a connection -/

/-- Whether the session directory lists the socket in the given project
room. -/
def isMember (st : ServerState) (pid sockId : String) : Bool :=
  (alookup ((alookup st.activeUsers pid).getD []) sockId).isSome

/-- Number of rooms of a directory listing the socket. -/
def memberRoomsL (sockId : String) :
    List (String × List (String × Session)) → Nat
  | [] => 0
  | (_, users) :: rest =>
    (if (alookup users sockId).isSome then 1 else 0) + memberRoomsL sockId rest

/-- Number of rooms of the session directory listing the socket. -/
def memberRooms (st : ServerState) (sockId : String) : Nat :=
  memberRoomsL sockId st.activeUsers

/-- Key lists of every room are duplicate-free (always true of a real JS
`Map`); stated as a decidable test. -/
def roomsWF (st : ServerState) : Bool :=
  st.activeUsers.all fun p => decide (p.2.map Prod.fst).Nodup

/-- C5 counterexample: a connection that joins project A and then project
B is a member of both rooms at once, and a single leave removes it from
room A only — it is still a member of room B afterwards. -/
theorem double_join_leaves_double_membership :
    memberRooms ((onJoinProject
        ((onJoinProject ServerState.empty "s1" (some "u1") "A" true
          (some { username := "a", fullName := "A", avatar := "" }) 0).1)
        "s1" (some "u1") "B" true
        (some { username := "a", fullName := "A", avatar := "" }) 1).1) "s1" = 2 ∧
    memberRooms (handleUserLeave ((onJoinProject
        ((onJoinProject ServerState.empty "s1" (some "u1") "A" true
          (some { username := "a", fullName := "A", avatar := "" }) 0).1)
        "s1" (some "u1") "B" true
        (some { username := "a", fullName := "A", avatar := "" }) 1).1) "s1").1 "s1" = 1 ∧
    isMember (handleUserLeave ((onJoinProject
        ((onJoinProject ServerState.empty "s1" (some "u1") "A" true
          (some { username := "a", fullName := "A", avatar := "" }) 0).1)
        "s1" (some "u1") "B" true
        (some { username := "a", fullName := "A", avatar := "" }) 1).1) "s1").1 "B" "s1" = true := by
  decide

theorem removeFromFirstRoom_none_count (sockId : String)
    (l : List (String × List (String × Session)))
    (hr : removeFromFirstRoom sockId l = none) : memberRoomsL sockId l = 0 := by
  induction l with
  | nil => rfl
  | cons p rest ih =>
    rw [removeFromFirstRoom] at hr
    by_cases hs : (alookup p.2 sockId).isSome = true
    · rw [if_pos hs] at hr; exact absurd hr (by simp)
    · rw [if_neg hs] at hr
      cases hrec : removeFromFirstRoom sockId rest with
      | none =>
        rw [memberRoomsL, if_neg hs, ih hrec]
      | some pr => rw [hrec] at hr; exact absurd hr (by simp)

theorem removeFromFirstRoom_some_count (sockId : String)
    (l : List (String × List (String × Session)))
    (hwf : ∀ pid users, (pid, users) ∈ l → (users.map Prod.fst).Nodup)
    (pid : String) (l2 : List (String × List (String × Session)))
    (hr : removeFromFirstRoom sockId l = some (pid, l2)) :
    memberRoomsL sockId l2 + 1 = memberRoomsL sockId l := by
  induction l generalizing l2 with
  | nil => simp [removeFromFirstRoom] at hr
  | cons p rest ih =>
    have htail : ∀ q us, (q, us) ∈ rest → (us.map Prod.fst).Nodup :=
      fun q us hq => hwf q us (List.mem_cons_of_mem p hq)
    rw [removeFromFirstRoom] at hr
    by_cases hs : (alookup p.2 sockId).isSome = true
    · rw [if_pos hs] at hr
      cases hr
      rw [memberRoomsL, if_pos hs]
      by_cases he : (adel p.2 sockId).isEmpty = true
      · rw [if_pos he]; omega
      · rw [if_neg he, memberRoomsL]
        have hnone : alookup (adel p.2 sockId) sockId = none :=
          alookup_adel_self p.2 sockId (hwf p.1 p.2 (by exact List.mem_cons_self p rest))
        rw [hnone]
        simp only [Option.isSome_none, Bool.false_eq_true, if_false]
        omega
    · rw [if_neg hs] at hr
      cases hrec : removeFromFirstRoom sockId rest with
      | none => rw [hrec] at hr; exact absurd hr (by simp)
      | some pr =>
        rw [hrec] at hr
        cases hr
        rw [memberRoomsL, memberRoomsL, if_neg hs]
        have := ih htail pr.2 (by rw [hrec])
        omega

/-- C5 (amended): a connection CAN be a member of several rooms at once —
joining a second project does not remove the existing membership — and a
single leave/disconnect removes the connection from exactly one room (the
first one, in insertion order, that contains it), decrementing its room
count by one. -/
theorem join_keeps_other_memberships_leave_removes_one (st : ServerState)
    (sockId : String) (hwf : roomsWF st = true) :
    (∀ pid pid2 uid info now accessOk,
      isMember st pid sockId = true →
      isMember (onJoinProject st sockId uid pid2 accessOk info now).1 pid sockId = true) ∧
    memberRooms (handleUserLeave st sockId).1 sockId = memberRooms st sockId - 1 := by
  constructor
  · intro pid pid2 uid info now accessOk hmem
    rw [onJoinProject, handleUserJoin.eq_def]
    cases uid with
    | none => exact hmem
    | some uid0 =>
      cases accessOk with
      | false => exact hmem
      | true =>
        simp only [if_true]
        cases info with
        | none => by_cases hs : (alookup st.activeUsers pid2).isSome = true
                  · simp only [hs, if_true]
                    exact hmem
                  · simp only [hs, Bool.false_eq_true, if_false]
                    rw [isMember] at hmem ⊢
                    by_cases hp : pid2 = pid
                    · subst hp
                      have hnone : alookup st.activeUsers pid2 = none := by
                        cases hl : alookup st.activeUsers pid2 with
                        | none => rfl
                        | some v => rw [hl] at hs; simp at hs
                      rw [hnone] at hmem
                      simp [alookup] at hmem
                    · rw [alookup_aset_ne _ _ _ _ hp]
                      exact hmem
        | some u =>
          by_cases hs : (alookup st.activeUsers pid2).isSome = true
          · simp only [hs, if_true]
            rw [isMember] at hmem ⊢
            by_cases hp : pid2 = pid
            · subst hp
              rw [alookup_aset]
              simp only [Option.getD_some]
              rw [alookup_aset]
              rfl
            · rw [alookup_aset_ne _ _ _ _ hp]
              exact hmem
          · simp only [hs, Bool.false_eq_true, if_false]
            rw [isMember] at hmem ⊢
            by_cases hp : pid2 = pid
            · subst hp
              rw [alookup_aset]
              simp only [Option.getD_some]
              rw [alookup_aset]
              rfl
            · rw [alookup_aset_ne _ _ _ _ hp, alookup_aset_ne _ _ _ _ hp]
              exact hmem
  · rw [handleUserLeave]
    cases hr : removeFromFirstRoom sockId st.activeUsers with
    | none =>
      have h0 := removeFromFirstRoom_none_count sockId st.activeUsers hr
      simp only [memberRooms]
      omega
    | some pr =>
      have hwfL : ∀ pid users, (pid, users) ∈ st.activeUsers → (users.map Prod.fst).Nodup := by
        intro pid users hm
        have := List.all_eq_true.mp hwf (pid, users) hm
        exact of_decide_eq_true this
      have hcount := removeFromFirstRoom_some_count sockId st.activeUsers hwfL pr.1 pr.2 (by rw [hr])
      simp only [memberRooms]
      omega

/-- C5 (amended) witness: leaving after a single join on a fresh state
takes the membership count from 1 to 0. -/
theorem join_keeps_other_memberships_leave_removes_one_witness :
    memberRooms (handleUserLeave
      { rooms := [("A", ["s1"])],
        activeUsers := [("A", [("s1",
          { userId := "u1", socketId := "s1", username := "a", fullName := "A",
            avatar := "", joinedAt := 0, lastActivity := 0, cursor := none })])],
        cursors := [], operationQueue := [], saveTimeouts := [] } "s1").1 "s1" =
    memberRooms
      { rooms := [("A", ["s1"])],
        activeUsers := [("A", [("s1",
          { userId := "u1", socketId := "s1", username := "a", fullName := "A",
            avatar := "", joinedAt := 0, lastActivity := 0, cursor := none })])],
        cursors := [], operationQueue := [], saveTimeouts := [] } "s1" - 1 :=
  (join_keeps_other_memberships_leave_removes_one
    { rooms := [("A", ["s1"])],
      activeUsers := [("A", [("s1",
        { userId := "u1", socketId := "s1", username := "a", fullName := "A",
          avatar := "", joinedAt := 0, lastActivity := 0, cursor := none })])],
      cursors := [], operationQueue := [], saveTimeouts := [] } "s1" (by decide)).2

/-! ## Claim theorems: join/leave sequences on one (connection, project) pair -/

/-- A join or leave step of one fixed (connection, project) pair. -/
inductive JLOp where
  | join
  | leave
deriving Repr, DecidableEq

/-- One step of a sequence of successful joins and leaves on the same
(connection, project) pair. -/
def pairStep (sockId uid pid : String) (info : UserInfo) (now : Nat)
    (st : ServerState) : JLOp → ServerState
  | JLOp.join => (onJoinProject st sockId (some uid) pid true (some info) now).1
  | JLOp.leave => (handleUserLeave st sockId).1

/-- Number of sessions of the room of a project. -/
def roomSize (st : ServerState) (pid : String) : Nat :=
  ((alookup st.activeUsers pid).getD []).length

/-- Directory shapes reachable by join/leave of a single pair. -/
def pairInv (sockId pid : String) (st : ServerState) : Prop :=
  st.activeUsers = [] ∨ ∃ sess : Session, st.activeUsers = [(pid, [(sockId, sess)])]

theorem pairStep_join (sockId uid pid : String) (info : UserInfo) (now : Nat)
    (st : ServerState) (h : pairInv sockId pid st) :
    (pairStep sockId uid pid info now st JLOp.join).activeUsers =
      [(pid, [(sockId,
        { userId := uid, socketId := sockId, username := info.username,
          fullName := info.fullName, avatar := info.avatar, joinedAt := now,
          lastActivity := now, cursor := none })])] := by
  rcases h with h | ⟨sess, h⟩
  · simp [pairStep, onJoinProject, handleUserJoin, h, alookup, aset]
  · simp [pairStep, onJoinProject, handleUserJoin, h, alookup, aset]

theorem pairStep_leave (sockId uid pid : String) (info : UserInfo) (now : Nat)
    (st : ServerState) (h : pairInv sockId pid st) :
    (pairStep sockId uid pid info now st JLOp.leave).activeUsers = [] := by
  rcases h with h | ⟨sess, h⟩
  · simp [pairStep, handleUserLeave, removeFromFirstRoom, h]
  · simp [pairStep, handleUserLeave, removeFromFirstRoom, h, alookup, adel]

theorem pairStep_inv (sockId uid pid : String) (info : UserInfo) (now : Nat)
    (st : ServerState) (h : pairInv sockId pid st) (op : JLOp) :
    pairInv sockId pid (pairStep sockId uid pid info now st op) := by
  cases op with
  | join =>
    right
    exact ⟨_, pairStep_join sockId uid pid info now st h⟩
  | leave =>
    left
    exact pairStep_leave sockId uid pid info now st h

theorem foldl_pairStep_inv (sockId uid pid : String) (info : UserInfo) (now : Nat)
    (ops : List JLOp) (st : ServerState) (h : pairInv sockId pid st) :
    pairInv sockId pid (ops.foldl (pairStep sockId uid pid info now) st) := by
  induction ops generalizing st with
  | nil => exact h
  | cons op rest ih =>
    exact ih _ (pairStep_inv sockId uid pid info now st h op)

/-- C6: starting from the empty directory, after any sequence of
successful joins and leaves on the same (connection, project) pair the
room holds exactly one session when the last operation was a join
(re-joining replaces, never duplicates) and zero when it was a leave. -/
theorem join_leave_sequence_room_size (sockId uid pid : String)
    (info : UserInfo) (now : Nat) (ops : List JLOp) (op : JLOp) :
    roomSize ((ops ++ [op]).foldl (pairStep sockId uid pid info now) ServerState.empty) pid =
      if op = JLOp.join then 1 else 0 := by
  rw [List.foldl_append]
  have hinv := foldl_pairStep_inv sockId uid pid info now ops ServerState.empty
    (Or.inl rfl)
  rw [List.foldl_cons, List.foldl_nil]
  cases op with
  | join =>
    rw [roomSize, pairStep_join sockId uid pid info now _ hinv]
    simp [alookup]
  | leave =>
    rw [roomSize, pairStep_leave sockId uid pid info now _ hinv]
    simp [alookup]

/-! ## Claim theorems: cursor-move broadcast fan-out -/

theorem filter_ne_length (l : List String) (a : String)
    (hnd : l.Nodup) (hmem : a ∈ l) :
    (l.filter fun x => x ≠ a).length = l.length - 1 := by
  induction l with
  | nil => simp at hmem
  | cons b rest ih =>
    rw [List.nodup_cons] at hnd
    rw [List.filter_cons]
    by_cases hba : b = a
    · subst hba
      rw [if_neg (by simp)]
      have hfr : rest.filter (fun x => x ≠ b) = rest :=
        List.filter_eq_self.mpr (fun x hx => by
          simp only [ne_eq, decide_eq_true_eq]
          exact fun hxb => hnd.1 (hxb ▸ hx))
      rw [hfr]
      simp
    · have h1 : a ∈ rest := by
        rcases List.mem_cons.mp hmem with h | h
        · exact absurd h.symm hba
        · exact h
      rw [if_pos (by simp [hba])]
      rw [List.length_cons, List.length_cons, ih hnd.2 h1]
      have := List.length_pos_of_mem h1
      omega

/-- C8: a cursor-move from a member of a room with N sessions (whose
transport room matches the session directory) broadcasts to exactly the
other N−1 members — every session except the sender, never the sender —
and updates the stored cursor and last-activity timestamp of the
sender. -/
theorem cursor_move_fan_out (st : ServerState) (sockId pid : String)
    (users : List (String × Session)) (sess : Session)
    (data : CursorMoveData) (now : Nat)
    (hpid : data.projectId = some pid)
    (husers : alookup st.activeUsers pid = some users)
    (hsess : alookup users sockId = some sess)
    (hnd : (users.map Prod.fst).Nodup)
    (hroom : alookup st.rooms pid = some (users.map Prod.fst)) :
    (handleCursorMove st sockId data now).2 =
      [OutMsg.toRoomExcept pid sockId "cursor-move"] ∧
    (recipients (handleCursorMove st sockId data now).1
        (OutMsg.toRoomExcept pid sockId "cursor-move")).length = users.length - 1 ∧
    sockId ∉ recipients (handleCursorMove st sockId data now).1
        (OutMsg.toRoomExcept pid sockId "cursor-move") ∧
    (∀ x ∈ users.map Prod.fst, x ≠ sockId →
      x ∈ recipients (handleCursorMove st sockId data now).1
        (OutMsg.toRoomExcept pid sockId "cursor-move")) ∧
    alookup ((alookup (handleCursorMove st sockId data now).1.activeUsers pid).getD []) sockId =
      some { sess with
             lastActivity := now,
             cursor := some { filePath := data.filePath,
                              position := data.position,
                              selection := data.selection } } := by
  have hrooms : (handleCursorMove st sockId data now).1.rooms = st.rooms :=
    handleCursorMove_rooms st sockId data now
  have hrec : recipients (handleCursorMove st sockId data now).1
      (OutMsg.toRoomExcept pid sockId "cursor-move") =
      (users.map Prod.fst).filter (fun x => x ≠ sockId) := by
    rw [recipients, hrooms, hroom]
    rfl
  have hmemkeys : sockId ∈ users.map Prod.fst :=
    alookup_isSome_mem_keys users sockId (by rw [hsess]; rfl)
  have hstep : handleCursorMove st sockId data now =
      ({ st with
         cursors := aset st.cursors sockId
           { filePath := data.filePath, position := data.position,
             selection := data.selection, timestamp := now },
         activeUsers := aset st.activeUsers pid (aset users sockId
           { sess with
             lastActivity := now,
             cursor := some { filePath := data.filePath,
                              position := data.position,
                              selection := data.selection } }) },
       [OutMsg.toRoomExcept pid sockId "cursor-move"]) := by
    simp only [handleCursorMove, hpid, husers, hsess, jsRoom]
  refine ⟨by rw [hstep], ?_, ?_, ?_, ?_⟩
  · rw [hrec, filter_ne_length (users.map Prod.fst) sockId hnd hmemkeys,
      List.length_map]
  · rw [hrec]
    intro hmm
    have := List.mem_filter.mp hmm
    simp at this
  · intro x hx hxs
    rw [hrec]
    exact List.mem_filter.mpr ⟨hx, by simp [hxs]⟩
  · rw [hstep]
    simp only [alookup_aset, Option.getD_some]

/-- C8 witness: in a two-session room one cursor-move reaches exactly one
other member. -/
theorem cursor_move_fan_out_witness :
    (recipients (handleCursorMove
        { rooms := [("p1", ["s1", "s2"])],
          activeUsers := [("p1",
            [("s1", { userId := "u1", socketId := "s1", username := "a",
                      fullName := "A", avatar := "", joinedAt := 0,
                      lastActivity := 0, cursor := none }),
             ("s2", { userId := "u2", socketId := "s2", username := "b",
                      fullName := "B", avatar := "", joinedAt := 0,
                      lastActivity := 0, cursor := none })])],
          cursors := [], operationQueue := [], saveTimeouts := [] }
        "s1" { projectId := some "p1", filePath := some "f.js",
               position := some { line := 1, col := 2 }, selection := none } 7).1
      (OutMsg.toRoomExcept "p1" "s1" "cursor-move")).length = 1 := by
  have h := cursor_move_fan_out
    { rooms := [("p1", ["s1", "s2"])],
      activeUsers := [("p1",
        [("s1", { userId := "u1", socketId := "s1", username := "a",
                  fullName := "A", avatar := "", joinedAt := 0,
                  lastActivity := 0, cursor := none }),
         ("s2", { userId := "u2", socketId := "s2", username := "b",
                  fullName := "B", avatar := "", joinedAt := 0,
                  lastActivity := 0, cursor := none })])],
      cursors := [], operationQueue := [], saveTimeouts := [] }
    "s1" "p1"
    [("s1", { userId := "u1", socketId := "s1", username := "a",
              fullName := "A", avatar := "", joinedAt := 0,
              lastActivity := 0, cursor := none }),
     ("s2", { userId := "u2", socketId := "s2", username := "b",
              fullName := "B", avatar := "", joinedAt := 0,
              lastActivity := 0, cursor := none })]
    { userId := "u1", socketId := "s1", username := "a", fullName := "A",
      avatar := "", joinedAt := 0, lastActivity := 0, cursor := none }
    { projectId := some "p1", filePath := some "f.js",
      position := some { line := 1, col := 2 }, selection := none } 7
    rfl (by decide) (by decide) (by decide) (by decide)
  simpa using h.2.1

end ChatBot
